import Mathlib

/-!
Verification of the packrat backup orchestrator against its design
specification.  The Go source is embedded shallowly: pure functions become
Lean functions on lists of bytes (naturals below 256) and strings; the
effectful pipelines (upload, download, cleanup, container polling) become
explicit state-passing functions whose external collaborators (storage
backends, the container runtime, the random nonce source) are supplied as
parameters.  Primitives from outside the repository (AES-GCM, Argon2) are
kept abstract behind their documented contracts, while SHA-256 is
implemented concretely.
-/

namespace Packrat

/-- A byte string: a list of naturals, each intended to lie below 256. -/
abbrev Bytes := List Nat

/-! ## Cipher (pkg/crypto: Encrypt / Decrypt)

The Go code builds an AES block cipher from the key (aes.NewCipher, which
fails unless the key length is 16, 24 or 32 bytes) and wraps it in GCM
(cipher.NewGCM).  The AEAD itself lives in the Go standard library, outside
this repository, so it is modelled abstractly: sealFn produces the
authenticated ciphertext for a key, nonce and plaintext, and opn either
recovers the plaintext or fails. -/

/-- Abstract authenticated-encryption scheme, standing for the value of Go
type cipher.AEAD produced by cipher.NewGCM over the AES block cipher. -/
structure AEAD where
  nonceSize : Nat
  sealFn : Bytes → Bytes → Bytes → Bytes
  opn : Bytes → Bytes → Bytes → Option Bytes

/-- Key lengths accepted by aes.NewCipher (AES-128/192/256). -/
def validKeyLen (n : Nat) : Bool := n == 16 || n == 24 || n == 32

/-- Embedding of crypto.Encrypt.  The fresh random nonce drawn from
rand.Reader is passed explicitly; gcm.Seal with the nonce as destination
prepends the nonce to the sealed payload.  Returns none when aes.NewCipher
rejects the key length. -/
def Encrypt (A : AEAD) (key nonce plaintext : Bytes) : Option Bytes :=
  if validKeyLen key.length then some (nonce ++ A.sealFn key nonce plaintext)
  else none

/-- Embedding of crypto.Decrypt: reject keys of invalid length, reject
ciphertexts shorter than one nonce, otherwise split off the leading nonce
and run authenticated decryption on the remainder. -/
def Decrypt (A : AEAD) (key ctext : Bytes) : Option Bytes :=
  if validKeyLen key.length then
    if ctext.length < A.nonceSize then none
    else A.opn key (ctext.take A.nonceSize) (ctext.drop A.nonceSize)
  else none

/-- Correctness contract of the AEAD: opening a sealed payload under the
sealing key and nonce yields the plaintext. -/
def AEAD.Correct (A : AEAD) : Prop :=
  ∀ key nonce p, A.opn key nonce (A.sealFn key nonce p) = some p

/-- Authentication contract of the AEAD: opening under any other key of
valid length fails.  For real AES-GCM this holds up to the cryptographic
strength of the tag. -/
def AEAD.Auth (A : AEAD) : Prop :=
  ∀ key key2 nonce p, validKeyLen key.length = true →
    validKeyLen key2.length = true → key ≠ key2 →
    A.opn key2 nonce (A.sealFn key nonce p) = none

/-- Concrete AEAD instance used to witness that the two contracts are
satisfiable: sealFn appends the key and its length as an authentication tag,
opn checks for that suffix. -/
def tagAEAD : AEAD where
  nonceSize := 12
  sealFn := fun key _ p => p ++ (key ++ [key.length])
  opn := fun key _ c =>
    if (key ++ [key.length]) <:+ c then
      some (c.take (c.length - (key.length + 1)))
    else none

theorem tagAEAD_correct : tagAEAD.Correct := by
  intro key nonce p
  have hsuf : (key ++ [key.length]) <:+ (p ++ (key ++ [key.length])) :=
    List.suffix_append p (key ++ [key.length])
  simp only [tagAEAD, AEAD.opn, if_pos hsuf]
  have hlen : (p ++ (key ++ [key.length])).length - (key.length + 1) = p.length := by
    simp [List.length_append]
  rw [hlen]
  rw [List.take_left]

theorem tagAEAD_auth : tagAEAD.Auth := by
  intro key key2 nonce p _ _ hne
  have hnsuf : ¬ ((key2 ++ [key2.length]) <:+ (p ++ (key ++ [key.length]))) := by
    intro hsuf
    have hsuf1 : (key ++ [key.length]) <:+ (p ++ (key ++ [key.length])) :=
      List.suffix_append p (key ++ [key.length])
    have hlast1 : (key ++ [key.length]).getLast? = some key.length :=
      List.getLast?_concat key
    have hlast2 : (key2 ++ [key2.length]).getLast? = some key2.length :=
      List.getLast?_concat key2
    have hcases := List.suffix_or_suffix_of_suffix hsuf hsuf1
    have hlen : key.length = key2.length := by
      rcases hcases with h | h
      · rcases h with ⟨t, ht⟩
        have hg : (t ++ (key2 ++ [key2.length])).getLast? = some key2.length := by
          rw [List.getLast?_append_of_ne_nil _ (by simp), hlast2]
        rw [ht, hlast1] at hg
        exact Option.some_inj.mp hg
      · rcases h with ⟨t, ht⟩
        have hg : (t ++ (key ++ [key.length])).getLast? = some key.length := by
          rw [List.getLast?_append_of_ne_nil _ (by simp), hlast1]
        rw [ht, hlast2] at hg
        exact (Option.some_inj.mp hg).symm
    have heq : key2 ++ [key2.length] = key ++ [key.length] := by
      rcases hcases with h | h
      · exact List.IsSuffix.eq_of_length h (by simp [hlen])
      · exact (List.IsSuffix.eq_of_length h (by simp [hlen])).symm
    have hkeys : key2 = key := List.append_inj_left heq (by simp [hlen])
    exact hne hkeys.symm
  simp only [tagAEAD]
  rw [if_neg hnsuf]

/-- C1: for every 32-byte key and plaintext, decrypting an encryption under
the same key succeeds and returns the plaintext, and decrypting under any
other key of valid length fails with a decryption error, given the AEAD
correctness and authentication contracts of AES-GCM. -/
theorem c1_encrypt_decrypt_roundtrip (A : AEAD) (hC : A.Correct) (hA : A.Auth)
    (key nonce p : Bytes) (hk : key.length = 32) (hn : nonce.length = A.nonceSize) :
    Encrypt A key nonce p = some (nonce ++ A.sealFn key nonce p) ∧
    Decrypt A key (nonce ++ A.sealFn key nonce p) = some p ∧
    ∀ key2, validKeyLen key2.length = true → key2 ≠ key →
      Decrypt A key2 (nonce ++ A.sealFn key nonce p) = none := by
  have hv : validKeyLen key.length = true := by simp [validKeyLen, hk]
  have hlen : ¬ ((nonce ++ A.sealFn key nonce p).length < A.nonceSize) := by
    simp only [List.length_append, hn]
    omega
  have htake : (nonce ++ A.sealFn key nonce p).take A.nonceSize = nonce := by
    rw [← hn, List.take_left]
  have hdrop : (nonce ++ A.sealFn key nonce p).drop A.nonceSize =
      A.sealFn key nonce p := by
    rw [← hn, List.drop_left]
  refine ⟨?_, ?_, ?_⟩
  · simp [Encrypt, hv]
  · simp only [Decrypt, hv, if_true, if_neg hlen, htake, hdrop]
    exact hC key nonce p
  · intro key2 hv2 hne
    simp only [Decrypt, hv2, if_true, if_neg hlen, htake, hdrop]
    exact hA key key2 nonce p hv hv2 (fun h => hne h.symm)

/-- Closed instance of c1_encrypt_decrypt_roundtrip on the concrete witness
AEAD, a 32-byte key, a 12-byte nonce and a short plaintext. -/
theorem c1_encrypt_decrypt_roundtrip_witness :
    Decrypt tagAEAD (List.replicate 32 0)
      (List.replicate 12 1 ++
        tagAEAD.sealFn (List.replicate 32 0) (List.replicate 12 1) [1, 2, 3]) =
      some [1, 2, 3] ∧
    Decrypt tagAEAD (List.replicate 32 5)
      (List.replicate 12 1 ++
        tagAEAD.sealFn (List.replicate 32 0) (List.replicate 12 1) [1, 2, 3]) =
      none := by
  have h := c1_encrypt_decrypt_roundtrip tagAEAD tagAEAD_correct tagAEAD_auth
    (List.replicate 32 0) (List.replicate 12 1) [1, 2, 3] (by decide) (by decide)
  exact ⟨h.2.1, h.2.2 (List.replicate 32 5) (by decide) (by decide)⟩

/-- C7: decryption under a 32-byte key fails whenever the ciphertext is
shorter than one nonce, whenever authenticated decryption fails on the
split payload, and whenever the ciphertext was produced under a different
valid key; any successful decryption means the authenticated-decryption
check passed on the payload behind the nonce. -/
theorem c7_decrypt_error_cases (A : AEAD) (key c : Bytes) (hk : key.length = 32) :
    (c.length < A.nonceSize → Decrypt A key c = none) ∧
    (A.opn key (c.take A.nonceSize) (c.drop A.nonceSize) = none →
      Decrypt A key c = none) ∧
    (∀ p, Decrypt A key c = some p →
      A.nonceSize ≤ c.length ∧
      A.opn key (c.take A.nonceSize) (c.drop A.nonceSize) = some p) ∧
    (A.Auth → ∀ key0 nonce p0, validKeyLen key0.length = true → key0 ≠ key →
      nonce.length = A.nonceSize → c = nonce ++ A.sealFn key0 nonce p0 →
      Decrypt A key c = none) := by
  have hv : validKeyLen key.length = true := by simp [validKeyLen, hk]
  refine ⟨?_, ?_, ?_, ?_⟩
  · intro hshort
    simp [Decrypt, hv, hshort]
  · intro hfail
    by_cases hs : c.length < A.nonceSize
    · simp [Decrypt, hv, hs]
    · simp [Decrypt, hv, hs, hfail]
  · intro p hp
    by_cases hs : c.length < A.nonceSize
    · simp [Decrypt, hv, hs] at hp
    · simp only [Decrypt, hv, if_true, if_neg hs] at hp
      exact ⟨Nat.le_of_not_lt hs, hp⟩
  · intro hA key0 nonce p0 hv0 hne hn hc
    subst hc
    have hlen : ¬ ((nonce ++ A.sealFn key0 nonce p0).length < A.nonceSize) := by
      simp only [List.length_append, hn]
      omega
    have htake : (nonce ++ A.sealFn key0 nonce p0).take A.nonceSize = nonce := by
      rw [← hn, List.take_left]
    have hdrop : (nonce ++ A.sealFn key0 nonce p0).drop A.nonceSize =
        A.sealFn key0 nonce p0 := by
      rw [← hn, List.drop_left]
    simp only [Decrypt, hv, if_true, if_neg hlen, htake, hdrop]
    exact hA key0 key nonce p0 hv0 hv hne

/-- Closed instance of c7_decrypt_error_cases: a two-byte ciphertext is
rejected as too short, and a ciphertext sealed under a different 32-byte
key is rejected by authentication. -/
theorem c7_decrypt_error_cases_witness :
    Decrypt tagAEAD (List.replicate 32 0) [1, 2] = none ∧
    Decrypt tagAEAD (List.replicate 32 0)
      (List.replicate 12 1 ++
        tagAEAD.sealFn (List.replicate 32 7) (List.replicate 12 1) [9]) = none := by
  refine ⟨(c7_decrypt_error_cases tagAEAD (List.replicate 32 0) [1, 2]
    (by decide)).1 (by decide), ?_⟩
  exact (c7_decrypt_error_cases tagAEAD (List.replicate 32 0) _ (by decide)).2.2.2
    tagAEAD_auth (List.replicate 32 7) (List.replicate 12 1) [9]
    (by decide) (by decide) (by decide) rfl

/-! ## Key Manager (pkg/crypto: DeriveKey / SaveKey / LoadKey)

The deterministic salt is the first 16 bytes of the SHA-256 hash of the
password.  SHA-256 is a fixed public algorithm and is implemented here
concretely (32-bit words as naturals reduced mod 2^32); Argon2id is kept
abstract as a parameter, since its implementation lives outside the
repository. -/

/-- Reduction of a natural to a 32-bit word. -/
def w32 (n : Nat) : Nat := n % 4294967296

/-- Right rotation of a 32-bit word by n bits. -/
def rotr32 (n x : Nat) : Nat := w32 ((x >>> n) ||| (x <<< (32 - n)))

/-- SHA-256 small sigma 0. -/
def shaS0 (x : Nat) : Nat := (rotr32 7 x) ^^^ (rotr32 18 x) ^^^ (x >>> 3)

/-- SHA-256 small sigma 1. -/
def shaS1 (x : Nat) : Nat := (rotr32 17 x) ^^^ (rotr32 19 x) ^^^ (x >>> 10)

/-- SHA-256 big sigma 0. -/
def shaB0 (x : Nat) : Nat := (rotr32 2 x) ^^^ (rotr32 13 x) ^^^ (rotr32 22 x)

/-- SHA-256 big sigma 1. -/
def shaB1 (x : Nat) : Nat := (rotr32 6 x) ^^^ (rotr32 11 x) ^^^ (rotr32 25 x)

/-- SHA-256 choice function; complement realised by xor with the all-ones
32-bit word. -/
def shaCh (x y z : Nat) : Nat := (x &&& y) ^^^ ((x ^^^ 4294967295) &&& z)

/-- SHA-256 majority function. -/
def shaMaj (x y z : Nat) : Nat := (x &&& y) ^^^ (x &&& z) ^^^ (y &&& z)

/-- SHA-256 round constants. -/
def shaK : List Nat :=
  [116352408, 1899447441, 3049323471, 3921009573, 961987163,
   1508970993, 2453635748, 2870763221, 3624381080, 310598401,
   607225278, 1426881987, 1925078388, 2162078206, 2614888103,
   3248222580, 3835390401, 4022224774, 264347078, 604807628,
   770255983, 1249150122, 1555081692, 1996064986, 2554220882,
   2821834349, 2952996808, 3210313671, 3336571891, 3584528711,
   113926993, 338241895, 666307205, 773529912, 1294757372,
   1396182291, 1695183700, 1986661051, 2177026350, 2456956037,
   2730485921, 2820302411, 3259730800, 3345764771, 3516065817,
   3600352804, 4094571909, 275423344, 430227734, 506948616,
   659060556, 883997877, 958139571, 1322822218, 1537002063,
   1747873779, 1955562222, 2024104815, 2227730452, 2361852424,
   2428436474, 2756734187, 3204031479, 3329325298]

/-- SHA-256 initial hash value. -/
def shaH0 : List Nat :=
  [779033703, 3144134277, 1013904242, 2773480762, 1359893119,
   2600822924, 528734635, 1541459225]

/-- Working state of the SHA-256 compression function. -/
structure SHAState where
  a : Nat
  b : Nat
  c : Nat
  d : Nat
  e : Nat
  f : Nat
  g : Nat
  h : Nat

/-- One round of the SHA-256 compression function. -/
def shaRound (st : SHAState) (kw : Nat × Nat) : SHAState :=
  let t1 := w32 (st.h + shaB1 st.e + shaCh st.e st.f st.g + kw.1 + kw.2)
  let t2 := w32 (shaB0 st.a + shaMaj st.a st.b st.c)
  ⟨w32 (t1 + t2), st.a, st.b, st.c, w32 (st.d + t1), st.e, st.f, st.g⟩

/-- Big-endian grouping of bytes into 32-bit words. -/
def bytesToWords : List Nat → List Nat
  | b0 :: b1 :: b2 :: b3 :: rest =>
      (((b0 * 256 + b1) * 256 + b2) * 256 + b3) :: bytesToWords rest
  | _ => []

/-- Message-schedule extension; the accumulator holds the scheduled words
most recent first. -/
def extendW (acc : List Nat) : Nat → List Nat
  | 0 => acc
  | n + 1 =>
      extendW (w32 (shaS1 (acc.getD 1 0) + acc.getD 6 0 +
        shaS0 (acc.getD 14 0) + acc.getD 15 0) :: acc) n

/-- SHA-256 compression of one 64-byte block into the running hash. -/
def processBlock (hs : List Nat) (block : List Nat) : List Nat :=
  let ws := (extendW (bytesToWords block).reverse 48).reverse
  let st0 : SHAState :=
    ⟨hs.getD 0 0, hs.getD 1 0, hs.getD 2 0, hs.getD 3 0,
     hs.getD 4 0, hs.getD 5 0, hs.getD 6 0, hs.getD 7 0⟩
  let st := (shaK.zip ws).foldl shaRound st0
  [w32 (hs.getD 0 0 + st.a), w32 (hs.getD 1 0 + st.b),
   w32 (hs.getD 2 0 + st.c), w32 (hs.getD 3 0 + st.d),
   w32 (hs.getD 4 0 + st.e), w32 (hs.getD 5 0 + st.f),
   w32 (hs.getD 6 0 + st.g), w32 (hs.getD 7 0 + st.h)]

/-- Splitting a list into the given number of 64-byte blocks. -/
def chunksGo : Nat → List Nat → List (List Nat)
  | 0, _ => []
  | n + 1, l => l.take 64 :: chunksGo n (l.drop 64)

/-- Splitting a padded message (whose length is a multiple of 64) into its
64-byte blocks. -/
def chunks64 (l : List Nat) : List (List Nat) := chunksGo (l.length / 64) l

/-- Big-endian 8-byte encoding of a natural below 2^64. -/
def beBytes8 (n : Nat) : List Nat :=
  [n / 72057594037927936 % 256, n / 281474976710656 % 256,
   n / 1099511627776 % 256, n / 4294967296 % 256,
   n / 16777216 % 256, n / 65536 % 256, n / 256 % 256, n % 256]

/-- Big-endian 4-byte encoding of a 32-bit word. -/
def beBytes4 (w : Nat) : List Nat :=
  [w / 16777216 % 256, w / 65536 % 256, w / 256 % 256, w % 256]

/-- SHA-256 of a byte string: pad with 0x80, zeros and the 64-bit
big-endian bit length, then compress block by block. -/
def sha256 (msg : List Nat) : List Nat :=
  let len := msg.length
  let padded := msg ++ 128 :: List.replicate ((119 - len % 64) % 64) 0 ++
    beBytes8 (8 * len)
  (((chunks64 padded).foldl processBlock shaH0).map beBytes4).flatten

/-- Size in bytes of the derived encryption key (crypto.KeySize). -/
def KeySize : Nat := 32

/-- Size in bytes of the key-derivation salt (crypto.SaltSize). -/
def SaltSize : Nat := 16

/-- Argon2 time cost (crypto.Iterations). -/
def Iterations : Nat := 3

/-- Argon2 memory cost in KiB (crypto.Memory). -/
def Memory : Nat := 64 * 1024

/-- Argon2 parallelism (crypto.Parallelism). -/
def Parallelism : Nat := 2

/-- Embedding of crypto.generateDeterministicSalt: the first SaltSize bytes
of the SHA-256 hash of the password. -/
def generateDeterministicSalt (password : List Nat) : List Nat :=
  (sha256 password).take SaltSize

/-- Embedding of crypto.DeriveKey, parameterised by the Argon2id function
(argon2.IDKey, outside the repository); arguments follow the Go call:
password, salt, time, memory, threads, key length. -/
def DeriveKey
    (argon2IDKey : List Nat → List Nat → Nat → Nat → Nat → Nat → List Nat)
    (password : List Nat) : List Nat × List Nat :=
  let salt := generateDeterministicSalt password
  (argon2IDKey password salt Iterations Memory Parallelism KeySize, salt)

/-- C8: key derivation is deterministic, the salt is the 16-byte SHA-256
prefix of the password, the key is Argon2id with time cost 3, memory
64 MiB (65536 KiB), parallelism 2 and 32-byte output, and passwords whose
salt prefixes differ derive different (key, salt) pairs. -/
theorem c8_derivekey_deterministic_and_distinct
    (argon2IDKey : List Nat → List Nat → Nat → Nat → Nat → Nat → List Nat)
    (w1 w2 : List Nat) (hne : w1 ≠ w2)
    (hsalt : (sha256 w1).take 16 ≠ (sha256 w2).take 16) :
    DeriveKey argon2IDKey w1 = DeriveKey argon2IDKey w1 ∧
    DeriveKey argon2IDKey w1 =
      (argon2IDKey w1 ((sha256 w1).take 16) 3 65536 2 32,
       (sha256 w1).take 16) ∧
    DeriveKey argon2IDKey w1 ≠ DeriveKey argon2IDKey w2 := by
  refine ⟨rfl, rfl, ?_⟩
  intro h
  exact hsalt (congrArg Prod.snd h)

/-- Closed instance of c8_derivekey_deterministic_and_distinct on the
one-byte passwords a and b, with the SHA-256 salt prefixes computed by the
kernel. -/
theorem c8_derivekey_deterministic_and_distinct_witness :
    DeriveKey (fun p _ _ _ _ _ => p) [97] ≠
      DeriveKey (fun p _ _ _ _ _ => p) [98] :=
  (c8_derivekey_deterministic_and_distinct (fun p _ _ _ _ _ => p) [97] [98]
    (by decide) (by decide)).2.2

/-! ## Key-file persistence (crypto.SaveKey / crypto.LoadKey)

SaveKey writes the key and salt as two newline-separated lowercase hex
strings; LoadKey parses them back with Sscanf using the same format.  The
file system itself is external; the embedding covers the written content
and the parse. -/

/-- Lowercase hexadecimal digit for a value below 16, as printed by the Go
verb %x. -/
def hexDigitChar (n : Nat) : Char :=
  if n < 10 then Char.ofNat (48 + n) else Char.ofNat (87 + n)

/-- Two-digit lowercase hex encoding of one byte. -/
def byteToHexChars (b : Nat) : List Char :=
  [hexDigitChar (b / 16), hexDigitChar (b % 16)]

/-- Hex encoding of a byte string, as produced by Sprintf %x on a Go byte
slice. -/
def bytesToHexChars (bs : List Nat) : List Char :=
  (bs.map byteToHexChars).flatten

/-- Embedding of the file content written by crypto.SaveKey: the key and
the salt as hex strings separated by a newline (Sprintf with format
percent-x, newline, percent-x). -/
def saveKeyContent (key salt : List Nat) : String :=
  String.mk (bytesToHexChars key ++ '\n' :: bytesToHexChars salt)

/-- Characters accepted by the Go scan verb %x. -/
def isHexDigitChar (c : Char) : Bool :=
  ('0' ≤ c && c ≤ '9') || ('a' ≤ c && c ≤ 'f') || ('A' ≤ c && c ≤ 'F')

/-- Value of a hexadecimal digit character. -/
def hexCharVal (c : Char) : Nat :=
  if '0' ≤ c && c ≤ '9' then c.toNat - 48
  else if 'a' ≤ c && c ≤ 'f' then c.toNat - 87
  else if 'A' ≤ c && c ≤ 'F' then c.toNat - 55
  else 0

/-- Decoding of a hex-digit run into bytes; fails on an odd number of
digits, as the Go scanner does. -/
def decodeHexPairs : List Char → Option (List Nat)
  | [] => some []
  | [_] => none
  | c1 :: c2 :: rest =>
      (decodeHexPairs rest).map (fun bs => (16 * hexCharVal c1 + hexCharVal c2) :: bs)

/-- Embedding of the Sscanf parse in crypto.LoadKey on the character list:
scan a maximal run of hex digits into the key (failing if it is empty or
odd), match the literal newline, scan a second run into the salt. -/
def parseKeyChars (cs : List Char) : Option (List Nat × List Nat) :=
  let run1 := cs.takeWhile isHexDigitChar
  let rest1 := cs.dropWhile isHexDigitChar
  if run1.isEmpty then none
  else
    match decodeHexPairs run1 with
    | none => none
    | some key =>
      match rest1 with
      | '\n' :: rest2 =>
        let run2 := rest2.takeWhile isHexDigitChar
        if run2.isEmpty then none
        else
          match decodeHexPairs run2 with
          | none => none
          | some salt => some (key, salt)
      | _ => none

/-- Embedding of the parsing step of crypto.LoadKey. -/
def parseKeyFile (content : String) : Option (List Nat × List Nat) :=
  parseKeyChars content.data

/-- Hex digits decode to their value. -/
theorem hexCharVal_hexDigitChar : ∀ n, n < 16 → hexCharVal (hexDigitChar n) = n := by
  decide

/-- Hex digits are accepted by the scanner. -/
theorem isHexDigitChar_hexDigitChar :
    ∀ n, n < 16 → isHexDigitChar (hexDigitChar n) = true := by
  decide

/-- Every character of a hex encoding is a hex digit. -/
theorem bytesToHexChars_all_hex (bs : List Nat) (hb : ∀ b ∈ bs, b < 256) :
    ∀ c ∈ bytesToHexChars bs, isHexDigitChar c = true := by
  induction bs with
  | nil => intro c hc; simp [bytesToHexChars] at hc
  | cons b rest ih =>
    intro c hc
    have hblt : b < 256 := hb b (by simp)
    simp only [bytesToHexChars, List.map_cons, List.flatten_cons,
      byteToHexChars, List.mem_append, List.mem_cons] at hc
    rcases hc with hc | hc
    · rcases hc with hc | hc | hc
      · subst hc; exact isHexDigitChar_hexDigitChar _ (Nat.div_lt_of_lt_mul (by omega))
      · subst hc; exact isHexDigitChar_hexDigitChar _ (Nat.mod_lt _ (by omega))
      · simp at hc
    · exact ih (fun x hx => hb x (by simp [hx])) c hc

/-- Splitting takeWhile and dropWhile across an append whose left part
satisfies the predicate everywhere. -/
theorem takeWhile_append_all (p : Char → Bool) (l rest : List Char)
    (h : ∀ c ∈ l, p c = true) :
    (l ++ rest).takeWhile p = l ++ rest.takeWhile p ∧
    (l ++ rest).dropWhile p = rest.dropWhile p := by
  induction l with
  | nil => simp
  | cons c l ih =>
    have hc : p c = true := h c (by simp)
    have ihr := ih (fun x hx => h x (by simp [hx]))
    constructor
    · simp [List.takeWhile_cons, hc, ihr.1]
    · simp [List.dropWhile_cons, hc, ihr.2]

/-- Decoding inverts encoding for byte strings. -/
theorem decodeHexPairs_bytesToHexChars (bs : List Nat) (hb : ∀ b ∈ bs, b < 256) :
    decodeHexPairs (bytesToHexChars bs) = some bs := by
  induction bs with
  | nil => rfl
  | cons b rest ih =>
    have hblt : b < 256 := hb b (by simp)
    have hdiv : b / 16 < 16 := Nat.div_lt_of_lt_mul (by omega)
    have hmod : b % 16 < 16 := Nat.mod_lt _ (by omega)
    simp only [bytesToHexChars, List.map_cons, List.flatten_cons, byteToHexChars,
      List.cons_append, List.nil_append]
    show decodeHexPairs (hexDigitChar (b / 16) :: hexDigitChar (b % 16) ::
      bytesToHexChars rest) = some (b :: rest)
    simp only [decodeHexPairs, ih (fun x hx => hb x (by simp [hx])),
      hexCharVal_hexDigitChar _ hdiv, hexCharVal_hexDigitChar _ hmod,
      Option.map_some]
    have hb16 : 16 * (b / 16) + b % 16 = b := by omega
    rw [hb16]
    rfl

/-- C10: for every non-empty key and non-empty salt (of genuine bytes),
the content written by SaveKey parses back under the LoadKey scanner to
exactly the same pair. -/
theorem c10_savekey_loadkey_roundtrip (key salt : List Nat) (hk : key ≠ []) (hs : salt ≠ [])
    (hkb : ∀ b ∈ key, b < 256) (hsb : ∀ b ∈ salt, b < 256) :
    parseKeyFile (saveKeyContent key salt) = some (key, salt) := by
  have hdata : (saveKeyContent key salt).data =
      bytesToHexChars key ++ '\n' :: bytesToHexChars salt := rfl
  have hsplit := takeWhile_append_all isHexDigitChar (bytesToHexChars key)
    ('\n' :: bytesToHexChars salt) (bytesToHexChars_all_hex key hkb)
  have hnl : isHexDigitChar '\n' = false := by decide
  have htake1 : (bytesToHexChars key ++ '\n' :: bytesToHexChars salt).takeWhile
      isHexDigitChar = bytesToHexChars key := by
    rw [hsplit.1, List.takeWhile_cons_of_neg (by simp [hnl]), List.append_nil]
  have hdrop1 : (bytesToHexChars key ++ '\n' :: bytesToHexChars salt).dropWhile
      isHexDigitChar = '\n' :: bytesToHexChars salt := by
    rw [hsplit.2, List.dropWhile_cons_of_neg (by simp [hnl])]
  have hne1 : (bytesToHexChars key).isEmpty = false := by
    cases key with
    | nil => exact absurd rfl hk
    | cons b rest => rfl
  have htake2 : (bytesToHexChars salt).takeWhile isHexDigitChar =
      bytesToHexChars salt := by
    have h2 := takeWhile_append_all isHexDigitChar (bytesToHexChars salt) []
      (bytesToHexChars_all_hex salt hsb)
    simpa using h2.1
  have hne2 : (bytesToHexChars salt).isEmpty = false := by
    cases salt with
    | nil => exact absurd rfl hs
    | cons b rest => rfl
  rw [parseKeyFile, hdata]
  rw [parseKeyChars]
  simp only [htake1, hdrop1, hne1, Bool.false_eq_true, if_false,
    decodeHexPairs_bytesToHexChars key hkb, htake2, hne2,
    decodeHexPairs_bytesToHexChars salt hsb]

/-- Closed instance of c10_savekey_loadkey_roundtrip on a two-byte key and
a one-byte salt. -/
theorem c10_savekey_loadkey_roundtrip_witness : parseKeyFile (saveKeyContent [0, 255] [1]) = some ([0, 255], [1]) :=
  c10_savekey_loadkey_roundtrip [0, 255] [1] (by decide) (by decide)
    (by intro b hb; simp at hb; omega)
    (by intro b hb; simp at hb; omega)

/-! ## Retention Engine (backup.CleanupBackups / backup.parseBackupTime)

CleanupBackups resolves the effective retain count per service, then for
each backend lists the artifacts with the service name prefix, sorts them
by parsed modification time (newest first) and deletes everything beyond
the retain count.  The storage backends are external; each is supplied as
the outcome of its List call and a per-artifact Delete outcome. -/

/-- Value of a decimal digit character, none for other characters. -/
def digitVal (c : Char) : Option Nat :=
  if '0' ≤ c && c ≤ '9' then some (c.toNat - 48) else none

/-- Two-digit decimal number from two characters. -/
def num2 (a b : Char) : Option Nat :=
  (digitVal a).bind fun x => (digitVal b).map fun y => 10 * x + y

/-- Four-digit decimal number from four characters. -/
def num4 (a b c d : Char) : Option Nat :=
  (num2 a b).bind fun x => (num2 c d).map fun y => 100 * x + y

/-- Gregorian leap-year rule, as used by the Go time package for day
validation. -/
def isLeapYear (y : Nat) : Bool :=
  y % 4 == 0 && (y % 100 != 0 || y % 400 == 0)

/-- Days in a month, as validated by Go time.Parse. -/
def daysInMonth (y mo : Nat) : Nat :=
  if mo == 2 then (if isLeapYear y then 29 else 28)
  else if mo == 4 || mo == 6 || mo == 9 || mo == 11 then 30
  else 31

/-- Order-preserving encoding of a UTC date-time: chronological order of
valid (year, month, day, hour, minute, second) tuples coincides with the
order of time.Time values compared by After. -/
def encTime (y mo d h mi s : Nat) : Nat :=
  ((((y * 12 + (mo - 1)) * 31 + (d - 1)) * 24 + h) * 60 + mi) * 60 + s

/-- Encoding of the zero value of Go time.Time: January 1 of year 1,
00:00:00 UTC, which time.Parse failures collapse to. -/
def zeroTimeEnc : Nat := encTime 1 1 1 0 0 0

/-- Parse of the fixed layout 2006-01-02 15:04:05 UTC as performed by Go
time.Parse: four year digits (any value, including year 0), and
range-checked month, day-in-month, hour, minute and second, with the
literals matched exactly and no trailing text allowed. -/
def parseTimeUTC (s : String) : Option Nat :=
  match s.data with
  | [y1, y2, y3, y4, sep1, m1, m2, sep2, d1, d2, sep3, h1, h2, sep4,
     n1, n2, sep5, s1, s2, sep6, u1, u2, u3] =>
    if sep1 = '-' ∧ sep2 = '-' ∧ sep3 = ' ' ∧ sep4 = ':' ∧ sep5 = ':' ∧
        sep6 = ' ' ∧ u1 = 'U' ∧ u2 = 'T' ∧ u3 = 'C' then
      (num4 y1 y2 y3 y4).bind fun y =>
      (num2 m1 m2).bind fun mo =>
      (num2 d1 d2).bind fun d =>
      (num2 h1 h2).bind fun h =>
      (num2 n1 n2).bind fun mi =>
      (num2 s1 s2).bind fun sec =>
      if 1 ≤ mo ∧ mo ≤ 12 ∧ 1 ≤ d ∧ d ≤ daysInMonth y mo ∧ h ≤ 23 ∧
          mi ≤ 59 ∧ sec ≤ 59 then
        some (encTime y mo d h mi sec)
      else none
    else none
  | _ => none

/-- Embedding of backup.parseBackupTime: parse the recorded modification
time, returning the zero time on failure. -/
def parseBackupTime (s : String) : Nat := (parseTimeUTC s).getD zeroTimeEnc

/-- Embedding of storage.BackupFile: artifact name, size and recorded
modification time string. -/
structure BackupFile where
  name : String
  size : Nat
  modTime : String
deriving DecidableEq

/-- Sort key used by CleanupBackups: the parsed modification time. -/
def backupKey (b : BackupFile) : Nat := parseBackupTime b.modTime

/-- Insertion into a list sorted by parsed modification time, newest
first. -/
def insertByTimeDesc (b : BackupFile) : List BackupFile → List BackupFile
  | [] => [b]
  | c :: rest =>
      if backupKey c < backupKey b then b :: c :: rest
      else c :: insertByTimeDesc b rest

/-- The sort performed by CleanupBackups via sort.Slice with the
comparator timeI.After(timeJ).  sort.Slice is unstable, so the Go result
is some permutation that is sorted for the comparator; this function fixes
one such permutation. -/
def sortByTimeDesc (l : List BackupFile) : List BackupFile :=
  l.foldr insertByTimeDesc []

/-- The artifacts CleanupBackups attempts to delete for one backend: those
beyond the retain count in the sorted listing, guarded by the
len(backups) > retainCount test of the code. -/
def backupsToDelete (retain : Nat) (backups : List BackupFile) : List BackupFile :=
  if retain < backups.length then (sortByTimeDesc backups).drop retain else []

/-- Result of one storage Delete call. -/
inductive DelRes where
  | ok : DelRes
  | err : String → DelRes
deriving DecidableEq

/-- Whether the first character list is an initial segment of the
second. -/
def charsHavePre : List Char → List Char → Bool
  | [], _ => true
  | _ :: _, [] => false
  | a :: as, b :: bs => a == b && charsHavePre as bs

/-- Whether sub occurs as a contiguous run inside the second list. -/
def containsChars (sub : List Char) : List Char → Bool
  | [] => sub.isEmpty
  | c :: rest => charsHavePre sub (c :: rest) || containsChars sub rest

/-- Embedding of Go strings.Contains(s, sub). -/
def containsStr (s sub : String) : Bool := containsChars sub.data s.data

/-- The Synology delete loop of CleanupBackups over the artifacts due for
deletion: a delete error containing the text file does not exist is
skipped, any other delete error aborts with the wrapped message, and the
result carries the names actually deleted together with the count or the
error. -/
def runDeletesSyn (del : String → DelRes) :
    List BackupFile → List String × Except String Nat
  | [] => ([], Except.ok 0)
  | b :: rest =>
    match del b.name with
    | DelRes.ok =>
        let r := runDeletesSyn del rest
        (b.name :: r.1, r.2.map (· + 1))
    | DelRes.err m =>
        if containsStr m "file does not exist" then runDeletesSyn del rest
        else ([], Except.error
          ("failed to delete Synology backup " ++ b.name ++ ": " ++ m))

/-- The S3 delete loop of CleanupBackups: unlike the Synology loop, every
delete error aborts. -/
def runDeletesS3 (del : String → DelRes) :
    List BackupFile → List String × Except String Nat
  | [] => ([], Except.ok 0)
  | b :: rest =>
    match del b.name with
    | DelRes.ok =>
        let r := runDeletesS3 del rest
        (b.name :: r.1, r.2.map (· + 1))
    | DelRes.err m =>
        ([], Except.error
          ("failed to delete S3 backup " ++ b.name ++ ": " ++ m))

/-- One storage backend as CleanupBackups sees it for one service: the
result of List(name + dash) and the per-artifact Delete outcomes. -/
structure Backend where
  listRes : Except String (List BackupFile)
  delRes : String → DelRes

/-- Per-service Synology cleanup: list, sort, delete beyond the retain
count; a list error aborts with the wrapped message. -/
def cleanupSynology (retain : Nat) (B : Backend) : List String × Except String Nat :=
  match B.listRes with
  | Except.error e => ([], Except.error ("failed to list Synology backups: " ++ e))
  | Except.ok bs => runDeletesSyn B.delRes (backupsToDelete retain bs)

/-- Per-service S3 cleanup, mirroring cleanupSynology with the strict
delete loop. -/
def cleanupS3 (retain : Nat) (B : Backend) : List String × Except String Nat :=
  match B.listRes with
  | Except.error e => ([], Except.error ("failed to list S3 backups: " ++ e))
  | Except.ok bs => runDeletesS3 B.delRes (backupsToDelete retain bs)

/-- Per-service cleanup across backends in the order of the code: Synology
first, then S3 when configured, each on its own listing; the first error
aborts.  Returns the names deleted on each backend and the counts. -/
def cleanupOneService (retain : Nat) (syn : Backend) (s3 : Option Backend) :
    (List String × List String) × Except String (Nat × Nat) :=
  let rs := cleanupSynology retain syn
  match rs.2 with
  | Except.error e => ((rs.1, []), Except.error e)
  | Except.ok n =>
    match s3 with
    | none => ((rs.1, []), Except.ok (n, 0))
    | some b3 =>
      let r3 := cleanupS3 retain b3
      match r3.2 with
      | Except.error e => ((rs.1, r3.1), Except.error e)
      | Except.ok n3 => ((rs.1, r3.1), Except.ok (n, n3))

/-- Embedding of config.Service restricted to the field CleanupBackups
reads: the optional retention override. -/
structure Service where
  retainBackups : Option Nat

/-- Effective retention count: the service override when present, else the
global default (m.config.Backup.RetainBackups). -/
def effectiveRetain (defaultRetain : Nat) (svc : Service) : Nat :=
  match svc.retainBackups with
  | some n => n
  | none => defaultRetain

/-- Insertion produces a permutation of consing. -/
theorem insertByTimeDesc_perm (b : BackupFile) (l : List BackupFile) :
    List.Perm (insertByTimeDesc b l) (b :: l) := by
  induction l with
  | nil => rfl
  | cons c rest ih =>
    by_cases h : backupKey c < backupKey b
    · simp [insertByTimeDesc, h]
    · simp only [insertByTimeDesc, if_neg h]
      exact (ih.cons c).trans (List.Perm.swap b c rest)

/-- The sort is a permutation of its input. -/
theorem sortByTimeDesc_perm (l : List BackupFile) :
    List.Perm (sortByTimeDesc l) l := by
  induction l with
  | nil => rfl
  | cons b rest ih =>
    have h1 : sortByTimeDesc (b :: rest) = insertByTimeDesc b (sortByTimeDesc rest) := rfl
    rw [h1]
    exact (insertByTimeDesc_perm b (sortByTimeDesc rest)).trans (ih.cons b)

/-- Members of an insertion come from the inserted element or the list. -/
theorem mem_insertByTimeDesc {x b : BackupFile} {l : List BackupFile}
    (h : x ∈ insertByTimeDesc b l) : x = b ∨ x ∈ l :=
  List.mem_cons.mp ((insertByTimeDesc_perm b l).mem_iff.mp h)

/-- Insertion preserves descending sortedness. -/
theorem insertByTimeDesc_sorted (b : BackupFile) (l : List BackupFile)
    (h : List.Pairwise (fun x y => backupKey y ≤ backupKey x) l) :
    List.Pairwise (fun x y => backupKey y ≤ backupKey x) (insertByTimeDesc b l) := by
  induction l with
  | nil => simp [insertByTimeDesc]
  | cons c rest ih =>
    rcases List.pairwise_cons.mp h with ⟨hc, hrest⟩
    by_cases hlt : backupKey c < backupKey b
    · simp only [insertByTimeDesc, if_pos hlt]
      refine List.pairwise_cons.mpr ⟨?_, h⟩
      intro y hy
      rcases List.mem_cons.mp hy with rfl | hy
      · exact Nat.le_of_lt hlt
      · exact Nat.le_trans (hc y hy) (Nat.le_of_lt hlt)
    · simp only [insertByTimeDesc, if_neg hlt]
      refine List.pairwise_cons.mpr ⟨?_, ih hrest⟩
      intro y hy
      rcases mem_insertByTimeDesc hy with rfl | hy
      · exact Nat.le_of_not_lt hlt
      · exact hc y hy

/-- The sort is sorted by parsed time, newest first. -/
theorem sortByTimeDesc_sorted (l : List BackupFile) :
    List.Pairwise (fun x y => backupKey y ≤ backupKey x) (sortByTimeDesc l) := by
  induction l with
  | nil => simp [sortByTimeDesc]
  | cons b rest ih => exact insertByTimeDesc_sorted b (sortByTimeDesc rest) ih

/-- When every delete succeeds, the Synology loop deletes exactly the
given artifacts and counts them. -/
theorem runDeletesSyn_all_ok (bs : List BackupFile) :
    runDeletesSyn (fun _ => DelRes.ok) bs =
      (bs.map BackupFile.name, Except.ok bs.length) := by
  induction bs with
  | nil => rfl
  | cons b rest ih => simp [runDeletesSyn, ih, Except.map]

/-- When every delete succeeds, the S3 loop deletes exactly the given
artifacts and counts them. -/
theorem runDeletesS3_all_ok (bs : List BackupFile) :
    runDeletesS3 (fun _ => DelRes.ok) bs =
      (bs.map BackupFile.name, Except.ok bs.length) := by
  induction bs with
  | nil => rfl
  | cons b rest ih => simp [runDeletesS3, ih, Except.map]

/-- Artifact of the retention example, timestamped January 1. -/
def artJan1 : BackupFile :=
  ⟨"test-2024-01-01T00:00:00Z.enc", 0, "2024-01-01 00:00:00 UTC"⟩

/-- Artifact of the retention example, timestamped January 2. -/
def artJan2 : BackupFile :=
  ⟨"test-2024-01-02T00:00:00Z.enc", 0, "2024-01-02 00:00:00 UTC"⟩

/-- Artifact of the retention example, timestamped January 3. -/
def artJan3 : BackupFile :=
  ⟨"test-2024-01-03T00:00:00Z.enc", 0, "2024-01-03 00:00:00 UTC"⟩

/-- C2 (amended): per service and per backend, cleanup sorts the listed
artifacts by parsed modification time descending and deletes exactly those
beyond the effective retain count (service override else global default),
keeping the newest retain-count artifacts; an artifact whose time string
does not parse is assigned the zero time (January 1 of year 1), which
sorts as oldest among timestamps of year 1 or later but newer than a
parsable year-0 timestamp; with 3 artifacts dated January 1 to 3 and
retain count 2, exactly the January 1 artifact is deleted. -/
theorem c2_cleanup_retention (retain : Nat) (bs : List BackupFile)
    (s : String) (hs : parseTimeUTC s = none) :
    List.Perm (sortByTimeDesc bs) bs ∧
    List.Pairwise (fun x y => backupKey y ≤ backupKey x) (sortByTimeDesc bs) ∧
    backupsToDelete retain bs = (sortByTimeDesc bs).drop retain ∧
    sortByTimeDesc bs = (sortByTimeDesc bs).take retain ++ backupsToDelete retain bs ∧
    cleanupSynology retain ⟨Except.ok bs, fun _ => DelRes.ok⟩ =
      ((backupsToDelete retain bs).map BackupFile.name,
       Except.ok (backupsToDelete retain bs).length) ∧
    (∀ bs2 : List BackupFile,
      cleanupOneService retain ⟨Except.ok bs, fun _ => DelRes.ok⟩
          (some ⟨Except.ok bs2, fun _ => DelRes.ok⟩) =
        (((backupsToDelete retain bs).map BackupFile.name,
          (backupsToDelete retain bs2).map BackupFile.name),
         Except.ok ((backupsToDelete retain bs).length,
           (backupsToDelete retain bs2).length))) ∧
    parseBackupTime s = zeroTimeEnc ∧
    (∀ dflt n, effectiveRetain dflt ⟨some n⟩ = n ∧ effectiveRetain dflt ⟨none⟩ = dflt) ∧
    cleanupSynology 2 ⟨Except.ok [artJan1, artJan2, artJan3], fun _ => DelRes.ok⟩ =
      ([artJan1.name], Except.ok 1) := by
  have hperm := sortByTimeDesc_perm bs
  have hlen : (sortByTimeDesc bs).length = bs.length := hperm.length_eq
  have hdel : backupsToDelete retain bs = (sortByTimeDesc bs).drop retain := by
    by_cases h : retain < bs.length
    · simp [backupsToDelete, h]
    · rw [backupsToDelete, if_neg h, List.drop_eq_nil_of_le]
      omega
  refine ⟨hperm, sortByTimeDesc_sorted bs, hdel, ?_, ?_, ?_, ?_, ?_, ?_⟩
  · rw [hdel, List.take_append_drop]
  · simp [cleanupSynology, runDeletesSyn_all_ok]
  · intro bs2
    simp [cleanupOneService, cleanupSynology, cleanupS3,
      runDeletesSyn_all_ok, runDeletesS3_all_ok]
  · simp [parseBackupTime, hs]
  · intro dflt n
    exact ⟨rfl, rfl⟩
  · rfl

/-- Closed instance of c2_cleanup_retention on the January example and an
unparsable time string. -/
theorem c2_cleanup_retention_witness :
    parseBackupTime "garbage" = zeroTimeEnc ∧
    cleanupSynology 2 ⟨Except.ok [artJan1, artJan2, artJan3], fun _ => DelRes.ok⟩ =
      ([artJan1.name], Except.ok 1) := by
  have h := c2_cleanup_retention 2 [artJan1, artJan2, artJan3] "garbage" (by decide)
  exact ⟨h.2.2.2.2.2.2.1, h.2.2.2.2.2.2.2.2⟩

/-- Artifact whose modification time does not parse. -/
def artUnparsable : BackupFile := ⟨"test-u.enc", 0, "garbage"⟩

/-- Artifact timestamped in year 0, which parses and predates the zero
time. -/
def artYearZero : BackupFile := ⟨"test-y0.enc", 0, "0000-12-31 23:59:59 UTC"⟩

/-- C2 counterexample: an artifact with an unparsable time string sorts as
the zero time of year 1, hence NEWER than a parsable year-0 artifact; with
retain count 1 the code deletes the year-0 artifact and keeps the
unparsable one, while the claim (unparsable sorts as oldest) requires the
opposite. -/
theorem c2_counterexample :
    parseTimeUTC "garbage" = none ∧
    (parseTimeUTC "0000-12-31 23:59:59 UTC").isSome = true ∧
    parseBackupTime "0000-12-31 23:59:59 UTC" < parseBackupTime "garbage" ∧
    sortByTimeDesc [artUnparsable, artYearZero] = [artUnparsable, artYearZero] ∧
    backupsToDelete 1 [artUnparsable, artYearZero] = [artYearZero] ∧
    backupsToDelete 1 [artUnparsable, artYearZero] ≠ [artUnparsable] := by
  refine ⟨by decide, by decide, by decide, by decide, by decide, by decide⟩

/-- C3 (amended): in the Synology delete loop a delete error containing
file does not exist is tolerated (the loop continues and the artifact is
not counted), while any other delete error aborts with the error surfaced;
in the S3 delete loop every delete error aborts, not-found included;
successful deletions performed before an abort remain recorded (no
rollback); and a list error aborts cleanup for the backend with the error
surfaced. -/
theorem c3_cleanup_delete_errors (del : String → DelRes) (b : BackupFile)
    (rest : List BackupFile) (m e : String) (retain : Nat)
    (hnf : containsStr m "file does not exist" = true)
    (hother : containsStr e "file does not exist" = false) :
    (del b.name = DelRes.err m →
      runDeletesSyn del (b :: rest) = runDeletesSyn del rest) ∧
    (del b.name = DelRes.err e →
      runDeletesSyn del (b :: rest) =
        ([], Except.error
          ("failed to delete Synology backup " ++ b.name ++ ": " ++ e))) ∧
    (del b.name = DelRes.ok →
      (runDeletesSyn del (b :: rest)).1 = b.name :: (runDeletesSyn del rest).1) ∧
    (del b.name = DelRes.err m →
      runDeletesS3 del (b :: rest) =
        ([], Except.error
          ("failed to delete S3 backup " ++ b.name ++ ": " ++ m))) ∧
    (∀ le, cleanupSynology retain ⟨Except.error le, del⟩ =
      ([], Except.error ("failed to list Synology backups: " ++ le))) ∧
    (∀ le, cleanupS3 retain ⟨Except.error le, del⟩ =
      ([], Except.error ("failed to list S3 backups: " ++ le))) := by
  refine ⟨?_, ?_, ?_, ?_, ?_, ?_⟩
  · intro hd
    simp [runDeletesSyn, hd, hnf]
  · intro hd
    simp [runDeletesSyn, hd, hother]
  · intro hd
    simp [runDeletesSyn, hd]
  · intro hd
    simp [runDeletesS3, hd]
  · intro le
    rfl
  · intro le
    rfl

/-- Delete outcome function returning a not-found error for every
artifact. -/
def delNotFound : String → DelRes := fun _ => DelRes.err "file does not exist"

/-- Closed instance of c3_cleanup_delete_errors: the not-found delete is
skipped by the Synology loop and aborts the S3 loop. -/
theorem c3_cleanup_delete_errors_witness :
    runDeletesSyn delNotFound [artJan1] = runDeletesSyn delNotFound [] ∧
    runDeletesS3 delNotFound [artJan1] =
      ([], Except.error
        ("failed to delete S3 backup " ++ artJan1.name ++ ": file does not exist")) := by
  have h := c3_cleanup_delete_errors delNotFound artJan1 [] "file does not exist"
    "boom" 0 (by decide) (by decide)
  exact ⟨h.1 rfl, h.2.2.2.1 rfl⟩

/-- C3 counterexample: the same not-found delete error that the Synology
loop tolerates makes the S3 loop abort cleanup with an error, so not-found
deletes are not tolerated on every configured backend. -/
theorem c3_counterexample :
    runDeletesS3 delNotFound [artJan1] =
      ([], Except.error
        "failed to delete S3 backup test-2024-01-01T00:00:00Z.enc: file does not exist") ∧
    containsStr "file does not exist" "file does not exist" = true ∧
    runDeletesSyn delNotFound [artJan1] = ([], Except.ok 0) := by
  refine ⟨rfl, by decide, rfl⟩

/-! ## Exclusion Matcher and archive walk (backup.isExcluded /
backup.createArchive)

Paths are modelled as lists of slash-separated segments.  The doublestar
matcher is an external library; its recursive-glob semantics for the
constructs these patterns use (literal segments, star, question mark and
the doublestar segment) is implemented directly. -/

/-- One token of a glob pattern segment: a literal character, a star
(any run of characters within a segment) or a question mark (one
character).  Character classes and alternates of the doublestar syntax are
not used by this repository's patterns and are not modelled. -/
inductive PatTok where
  | lit : Char → PatTok
  | star : PatTok
  | qmark : PatTok
deriving DecidableEq

/-- One slash-separated segment of a glob pattern: either the recursive
doublestar, matching any number of path segments including none, or an
ordinary token segment. -/
inductive PatSeg where
  | dstar : PatSeg
  | seg : List PatTok → PatSeg
deriving DecidableEq

/-- Matching of one pattern segment against one path segment, modelling
the within-segment semantics of doublestar.Match.  The fuel is bounded by
the combined sizes and decreases at every step, so the wrapper always
supplies enough. -/
def segMatchF : Nat → List PatTok → List Char → Bool
  | 0, _, _ => false
  | fuel + 1, ts, cs =>
    match ts, cs with
    | [], [] => true
    | [], _ :: _ => false
    | PatTok.lit a :: ts2, c :: cs2 => a == c && segMatchF fuel ts2 cs2
    | PatTok.lit _ :: _, [] => false
    | PatTok.qmark :: ts2, _ :: cs2 => segMatchF fuel ts2 cs2
    | PatTok.qmark :: _, [] => false
    | PatTok.star :: ts2, cs =>
        segMatchF fuel ts2 cs ||
        (match cs with
         | [] => false
         | _ :: cs2 => segMatchF fuel (PatTok.star :: ts2) cs2)

/-- Segment matching with sufficient fuel. -/
def segMatch (ts : List PatTok) (cs : List Char) : Bool :=
  segMatchF (ts.length + cs.length + 1) ts cs

/-- Matching of a full pattern against a path, segment-wise, modelling
doublestar.Match: a doublestar consumes zero or more path segments.  Fuel
as in segMatchF. -/
def dsMatchF : Nat → List PatSeg → List (List Char) → Bool
  | 0, _, _ => false
  | fuel + 1, ps, segs =>
    match ps, segs with
    | [], [] => true
    | [], _ :: _ => false
    | PatSeg.dstar :: ps2, segs =>
        dsMatchF fuel ps2 segs ||
        (match segs with
         | [] => false
         | _ :: rest => dsMatchF fuel (PatSeg.dstar :: ps2) rest)
    | PatSeg.seg _ :: _, [] => false
    | PatSeg.seg t :: ps2, s :: rest => segMatch t s && dsMatchF fuel ps2 rest

/-- Path matching with sufficient fuel. -/
def dsMatch (ps : List PatSeg) (segs : List (List Char)) : Bool :=
  dsMatchF (ps.length + segs.length + 1) ps segs

/-- Splitting a character list on slashes; the accumulator holds the
current segment reversed. -/
def splitSegsC : List Char → List Char → List (List Char)
  | [], acc => [acc.reverse]
  | c :: rest, acc =>
      if c = '/' then acc.reverse :: splitSegsC rest []
      else splitSegsC rest (c :: acc)

/-- Forward-slash-normalized path as its list of segments; on the host
convention of this code (slash-separated relative paths from filepath.Rel)
filepath.ToSlash is the identity. -/
def pathSegments (s : String) : List (List Char) := splitSegsC s.data []

/-- Parse of one pattern segment. -/
def parseSeg (cs : List Char) : PatSeg :=
  if cs = ['*', '*'] then PatSeg.dstar
  else PatSeg.seg (cs.map fun c =>
    if c = '*' then PatTok.star
    else if c = '?' then PatTok.qmark
    else PatTok.lit c)

/-- Parse of a glob pattern into its segments. -/
def parsePattern (s : String) : List PatSeg := (splitSegsC s.data []).map parseSeg

/-- The chain of directories visited by the ancestor loop of
backup.isExcluded: starting from the path, repeatedly take filepath.Dir
and record the result, stopping once the recorded directory was the dot
directory (which the loop does match against the pattern before
stopping). -/
def ancestorChainF : Nat → List (List Char) → List (List (List Char))
  | 0, _ => []
  | fuel + 1, p =>
    match p with
    | [] => []
    | [s] => if s = ['.'] then [] else [[['.']]]
    | x :: y :: rest =>
        (x :: y :: rest).dropLast :: ancestorChainF fuel ((x :: y :: rest).dropLast)

/-- Ancestor chain with sufficient fuel (one step per segment). -/
def ancestorChain (p : List (List Char)) : List (List (List Char)) :=
  ancestorChainF p.length p

/-- Embedding of backup.isExcluded: a path is excluded when some pattern
matches the path itself or any directory of its ancestor chain. -/
def isExcluded (path : List (List Char)) (excludePatterns : List (List PatSeg)) : Bool :=
  excludePatterns.any fun pat =>
    dsMatch pat path || (ancestorChain path).any fun d => dsMatch pat d

/-- One filesystem object seen by filepath.Walk, in walk order: its
relative path and whether it is a directory. -/
structure FSEntry where
  path : List (List Char)
  isDir : Bool
deriving DecidableEq

/-- Whether d is a proper segment-wise ancestor directory of p. -/
def isProperPre (d p : List (List Char)) : Bool :=
  d.isPrefixOf p && decide (d.length < p.length)

/-- The exclusion behaviour of backup.createArchive over a walk-ordered
entry list: an excluded directory is skipped together with its whole
subtree (filepath.SkipDir), an excluded file is skipped alone, and every
other entry contributes an archive entry under its relative path. -/
def walkArchiveF : Nat → List (List PatSeg) → List FSEntry → List (List (List Char))
  | 0, _, _ => []
  | fuel + 1, pats, entries =>
    match entries with
    | [] => []
    | e :: rest =>
      if isExcluded e.path pats then
        if e.isDir then
          walkArchiveF fuel pats (rest.filter fun e2 => !(isProperPre e.path e2.path))
        else walkArchiveF fuel pats rest
      else e.path :: walkArchiveF fuel pats rest

/-- Archive entries produced for a walk-ordered entry list (fuel one per
entry suffices since every step consumes at least one entry). -/
def walkArchive (pats : List (List PatSeg)) (entries : List FSEntry) :
    List (List (List Char)) :=
  walkArchiveF entries.length pats entries

/-- Exclusion patterns of the specification example. -/
def egPats : List (List PatSeg) :=
  [parsePattern "**/node_modules/**", parsePattern "**/.git/**"]

/-- Walk-ordered tree of the specification example, root first. -/
def egTree : List FSEntry :=
  [⟨pathSegments ".", true⟩,
   ⟨pathSegments ".git", true⟩,
   ⟨pathSegments ".git/config", false⟩,
   ⟨pathSegments "node_modules", true⟩,
   ⟨pathSegments "node_modules/pkg", true⟩,
   ⟨pathSegments "node_modules/pkg/index.js", false⟩,
   ⟨pathSegments "src", true⟩,
   ⟨pathSegments "src/code.js", false⟩]

/-- C4: a path is excluded exactly when the slash-normalized path or some
directory of its ancestor chain matches one of the patterns under
recursive-glob matching; with the node_modules and .git patterns, the
archive of the example tree contains src/code.js and contains neither
node_modules/pkg/index.js nor .git/config. -/
theorem c4_isexcluded_iff_and_example :
    (∀ (path : List (List Char)) (pats : List (List PatSeg)),
      isExcluded path pats = true ↔
        ∃ pat ∈ pats, dsMatch pat path = true ∨
          ∃ d ∈ ancestorChain path, dsMatch pat d = true) ∧
    pathSegments "src/code.js" ∈ walkArchive egPats egTree ∧
    pathSegments "node_modules/pkg/index.js" ∉ walkArchive egPats egTree ∧
    pathSegments ".git/config" ∉ walkArchive egPats egTree ∧
    isExcluded (pathSegments "node_modules/pkg/index.js") egPats = true ∧
    isExcluded (pathSegments ".git/config") egPats = true ∧
    isExcluded (pathSegments "src/code.js") egPats = false := by
  refine ⟨?_, by decide, by decide, by decide, by decide, by decide, by decide⟩
  intro path pats
  simp [isExcluded, List.any_eq_true, Bool.or_eq_true]

/-! ## Backup/Restore Orchestrator (backup.CreateBackup /
backup.RestoreBackup)

The pipelines sequence effectful steps against external collaborators
(filesystem, process execution, container runtime, storage backends).
Each step's outcome is supplied as data, and the embedding records the
storage calls the pipeline issues together with its result. -/

/-- Outcomes of the effectful steps of backup.CreateBackup, in program
order: service lookup, temporary-directory creation, the optional
pre-backup command (none when absent or successful), the optional
container stop, archive construction, encryption, the local write, and the
two uploads.  The secondary backend is attempted only when configured. -/
structure CreateSteps where
  svcFound : Bool
  mkdirErr : Option String
  preBackupErr : Option String
  dockerStopErr : Option String
  archiveErr : Option String
  encryptErr : Option String
  writeErr : Option String
  synUploadErr : Option String
  s3Configured : Bool
  s3UploadErr : Option String

/-- Storage calls a backup run can issue.  The delete events exist only
so absence of rollback is expressible; CreateBackup never emits them. -/
inductive UploadEv where
  | uploadSynology : String → UploadEv
  | uploadS3 : String → UploadEv
  | deleteSynology : String → UploadEv
  | deleteS3 : String → UploadEv
deriving DecidableEq

/-- Embedding of backup.CreateBackup as the sequence of storage calls it
issues and its result: each failing step aborts with its wrapped error;
after a successful local write the artifact is uploaded to Synology first
and then, when configured, to S3. -/
def CreateBackup (st : CreateSteps) (backupName : String) :
    List UploadEv × Option String :=
  if st.svcFound = false then ([], some "service not found in configuration")
  else match st.mkdirErr with
  | some e => ([], some ("failed to create temporary directory: " ++ e))
  | none =>
  match st.preBackupErr with
  | some e => ([], some ("failed to execute pre-backup command: " ++ e))
  | none =>
  match st.dockerStopErr with
  | some e => ([], some ("failed to handle Docker container: " ++ e))
  | none =>
  match st.archiveErr with
  | some e => ([], some ("failed to create archive: " ++ e))
  | none =>
  match st.encryptErr with
  | some e => ([], some ("failed to encrypt backup: " ++ e))
  | none =>
  match st.writeErr with
  | some e => ([], some ("failed to save backup locally: " ++ e))
  | none =>
  match st.synUploadErr with
  | some e => ([UploadEv.uploadSynology backupName],
      some ("failed to upload to Synology: " ++ e))
  | none =>
    if st.s3Configured then
      match st.s3UploadErr with
      | some e => ([UploadEv.uploadSynology backupName, UploadEv.uploadS3 backupName],
          some ("failed to upload to S3: " ++ e))
      | none => ([UploadEv.uploadSynology backupName, UploadEv.uploadS3 backupName],
          none)
    else ([UploadEv.uploadSynology backupName], none)

/-- Whether a storage call is a delete. -/
def UploadEv.isDelete : UploadEv → Bool
  | UploadEv.deleteSynology _ => true
  | UploadEv.deleteS3 _ => true
  | _ => false

/-- C5: uploads happen one at a time in fixed order, Synology first and S3
second when configured; a Synology failure aborts before any S3 attempt
with an error naming Synology, an S3 failure aborts with an error naming
S3 while the Synology copy stays uploaded, and no delete of an uploaded
copy is ever issued. -/
theorem c5_upload_order_failure_no_rollback (st : CreateSteps) (name : String)
    (hsvc : st.svcFound = true) (hm : st.mkdirErr = none)
    (hp : st.preBackupErr = none) (hd : st.dockerStopErr = none)
    (ha : st.archiveErr = none) (he : st.encryptErr = none)
    (hw : st.writeErr = none) :
    (CreateBackup st name).1.head? = some (UploadEv.uploadSynology name) ∧
    (∀ e, st.synUploadErr = some e →
      CreateBackup st name =
        ([UploadEv.uploadSynology name],
         some ("failed to upload to Synology: " ++ e))) ∧
    (∀ e, st.synUploadErr = none → st.s3Configured = true →
      st.s3UploadErr = some e →
      CreateBackup st name =
        ([UploadEv.uploadSynology name, UploadEv.uploadS3 name],
         some ("failed to upload to S3: " ++ e))) ∧
    (st.synUploadErr = none → st.s3Configured = false →
      CreateBackup st name = ([UploadEv.uploadSynology name], none)) ∧
    (st.synUploadErr = none → st.s3Configured = true → st.s3UploadErr = none →
      CreateBackup st name =
        ([UploadEv.uploadSynology name, UploadEv.uploadS3 name], none)) ∧
    (∀ ev ∈ (CreateBackup st name).1, ev.isDelete = false) := by
  simp only [CreateBackup, hsvc, hm, hp, hd, ha, he, hw]
  refine ⟨?_, ?_, ?_, ?_, ?_, ?_⟩
  · cases hsy : st.synUploadErr with
    | some e => rfl
    | none =>
      by_cases h3 : st.s3Configured
      · cases st.s3UploadErr <;> simp [h3]
      · simp [h3]
  · intro e he2
    simp [he2]
  · intro e hn h3 h3e
    simp [hn, h3, h3e]
  · intro hn h3
    simp [hn, h3]
  · intro hn h3 h3n
    simp [hn, h3, h3n]
  · intro ev hev
    cases hsy : st.synUploadErr with
    | some e =>
      rw [hsy] at hev
      simp at hev
      simp [hev, UploadEv.isDelete]
    | none =>
      rw [hsy] at hev
      by_cases h3 : st.s3Configured
      · cases h3e : st.s3UploadErr <;>
          (rw [h3e] at hev; simp [h3] at hev;
           rcases hev with h | h <;> simp [h, UploadEv.isDelete])
      · simp [h3] at hev
        simp [hev, UploadEv.isDelete]

/-- Step outcomes where everything up to the S3 upload succeeds and the S3
upload fails. -/
def allOkCreate : CreateSteps :=
  ⟨true, none, none, none, none, none, none, none, true, some "s3 boom"⟩

/-- Closed instance of c5_upload_order_failure_no_rollback: the S3 failure
leaves the Synology upload in place and is named in the error. -/
theorem c5_upload_order_failure_no_rollback_witness :
    CreateBackup allOkCreate "test-x.enc" =
      ([UploadEv.uploadSynology "test-x.enc", UploadEv.uploadS3 "test-x.enc"],
       some ("failed to upload to S3: " ++ "s3 boom")) :=
  (c5_upload_order_failure_no_rollback allOkCreate "test-x.enc"
    rfl rfl rfl rfl rfl rfl rfl).2.2.1 "s3 boom" rfl rfl rfl

/-- Outcomes of the effectful steps of backup.RestoreBackup, in program
order: service lookup, temporary-directory creation, the primary and
secondary downloads, the file read, decryption, the optional container
stop and extraction. -/
structure RestoreSteps where
  svcFound : Bool
  mkdirErr : Option String
  synDownloadErr : Option String
  s3Configured : Bool
  s3DownloadErr : Option String
  readErr : Option String
  decryptErr : Option String
  dockerStopErr : Option String
  extractErr : Option String

/-- Observable actions of a restore run: the two downloads, decryption and
extraction. -/
inductive RestoreEv where
  | downSynology : String → RestoreEv
  | downS3 : String → RestoreEv
  | decryptPayload : RestoreEv
  | extractPayload : RestoreEv
deriving DecidableEq

/-- Embedding of backup.RestoreBackup: download from Synology, on any
failure retry on S3 when configured, then read, decrypt and extract, each
failing step aborting with its wrapped error. -/
def RestoreBackup (st : RestoreSteps) (backupName : String) :
    List RestoreEv × Option String :=
  if st.svcFound = false then ([], some "service not found in configuration")
  else match st.mkdirErr with
  | some e => ([], some ("failed to create temporary directory: " ++ e))
  | none =>
    let dl : List RestoreEv × Option String :=
      match st.synDownloadErr with
      | none => ([RestoreEv.downSynology backupName], none)
      | some e =>
        if st.s3Configured then
          match st.s3DownloadErr with
          | none => ([RestoreEv.downSynology backupName, RestoreEv.downS3 backupName],
              none)
          | some e2 =>
              ([RestoreEv.downSynology backupName, RestoreEv.downS3 backupName],
               some ("failed to download backup from any storage: " ++ e2))
        else ([RestoreEv.downSynology backupName],
            some ("failed to download backup from Synology: " ++ e))
    match dl.2 with
    | some e => (dl.1, some e)
    | none =>
      match st.readErr with
      | some e => (dl.1, some ("failed to read backup file: " ++ e))
      | none =>
      match st.decryptErr with
      | some e => (dl.1 ++ [RestoreEv.decryptPayload],
          some ("failed to decrypt backup: " ++ e))
      | none =>
      match st.dockerStopErr with
      | some e => (dl.1 ++ [RestoreEv.decryptPayload],
          some ("failed to handle Docker container: " ++ e))
      | none =>
      match st.extractErr with
      | some e => (dl.1 ++ [RestoreEv.decryptPayload, RestoreEv.extractPayload],
          some ("failed to extract archive: " ++ e))
      | none => (dl.1 ++ [RestoreEv.decryptPayload, RestoreEv.extractPayload], none)

/-- C6: when the primary download fails and no secondary is configured,
restore aborts with a download error; when the secondary is configured and
also fails, restore aborts with the from-any-storage download error; in
both abort cases neither decryption nor extraction happens; when the
secondary succeeds, restore proceeds with its copy into decryption. -/
theorem c6_restore_download_fallback (st : RestoreSteps) (name : String)
    (hsvc : st.svcFound = true) (hm : st.mkdirErr = none) :
    (∀ e, st.synDownloadErr = some e → st.s3Configured = false →
      RestoreBackup st name =
        ([RestoreEv.downSynology name],
         some ("failed to download backup from Synology: " ++ e))) ∧
    (∀ e e2, st.synDownloadErr = some e → st.s3Configured = true →
      st.s3DownloadErr = some e2 →
      RestoreBackup st name =
        ([RestoreEv.downSynology name, RestoreEv.downS3 name],
         some ("failed to download backup from any storage: " ++ e2))) ∧
    (∀ e, st.synDownloadErr = some e → st.s3Configured = true →
      st.s3DownloadErr = none → st.readErr = none →
      (RestoreBackup st name).1.take 2 =
        [RestoreEv.downSynology name, RestoreEv.downS3 name] ∧
      RestoreEv.decryptPayload ∈ (RestoreBackup st name).1) ∧
    (∀ e, RestoreBackup st name =
        ([RestoreEv.downSynology name],
         some ("failed to download backup from Synology: " ++ e)) →
      RestoreEv.decryptPayload ∉ [RestoreEv.downSynology name] ∧
      RestoreEv.extractPayload ∉ [RestoreEv.downSynology name]) ∧
    (∀ e2, RestoreBackup st name =
        ([RestoreEv.downSynology name, RestoreEv.downS3 name],
         some ("failed to download backup from any storage: " ++ e2)) →
      RestoreEv.decryptPayload ∉ [RestoreEv.downSynology name, RestoreEv.downS3 name] ∧
      RestoreEv.extractPayload ∉ [RestoreEv.downSynology name, RestoreEv.downS3 name]) := by
  simp only [RestoreBackup, hsvc, hm]
  refine ⟨?_, ?_, ?_, ?_, ?_⟩
  · intro e hse h3
    rw [hse]
    simp [h3]
  · intro e e2 hse h3 h3e
    rw [hse, h3e]
    simp [h3]
  · intro e hse h3 h3n hr
    rw [hse, h3n, hr]
    simp [h3]
    cases st.decryptErr <;> cases st.dockerStopErr <;> cases st.extractErr <;> simp
  · intro e _
    refine ⟨by simp, by simp⟩
  · intro e2 _
    refine ⟨by simp, by simp⟩

/-- Step outcomes where the primary download fails and the secondary
succeeds. -/
def restoreFallbackSteps : RestoreSteps :=
  ⟨true, none, some "not found", true, none, none, none, none, none⟩

/-- Step outcomes where both downloads fail. -/
def restoreBothFailSteps : RestoreSteps :=
  ⟨true, none, some "not found", true, some "also gone", none, none, none, none⟩

/-- Closed instance of c6_restore_download_fallback on both concrete
scenarios. -/
theorem c6_restore_download_fallback_witness :
    RestoreBackup restoreBothFailSteps "test-x.enc" =
      ([RestoreEv.downSynology "test-x.enc", RestoreEv.downS3 "test-x.enc"],
       some ("failed to download backup from any storage: " ++ "also gone")) ∧
    RestoreEv.decryptPayload ∈ (RestoreBackup restoreFallbackSteps "test-x.enc").1 := by
  have h1 := (c6_restore_download_fallback restoreBothFailSteps "test-x.enc" rfl rfl).2.1
    "not found" "also gone" rfl rfl rfl
  have h2 := ((c6_restore_download_fallback restoreFallbackSteps "test-x.enc" rfl rfl).2.2.1
    "not found" rfl rfl rfl rfl).2
  exact ⟨h1, h2⟩

/-! ## Container Lifecycle Controller (backup.handleDockerContainer,
resume branch)

The resume loop is modelled as a step relation over the sequence of
observed container states: observation i is the result of the i-th
ContainerInspect call (index 0 is the inspection that decides whether a
health check is declared), and the fuel is the number of polls the
2-minute overall bound allows before the timeout channel fires. -/

/-- Container state reported by one successful inspection: the running
flag, the health status when a health check is declared, and the exit
code. -/
structure ContainerState where
  running : Bool
  health : Option String
  exitCode : Int
deriving DecidableEq

/-- Result of the resume branch of backup.handleDockerContainer. -/
inductive ResumeResult where
  | success : ResumeResult
  | unhealthy : ResumeResult
  | startFailed : Int → ResumeResult
  | timedOut : ResumeResult
  | startError : String → ResumeResult
  | inspectFailed : String → ResumeResult
deriving DecidableEq

/-- The health-check polling loop: at each step the next inspection is
consumed; healthy succeeds, unhealthy aborts fatally, an inspection error
aborts, anything else polls again; the fuel counts the polls the 2-minute
bound allows before the timeout channel fires.  An observation without
health data polls again, modelling a container whose health check stays
declared. -/
def healthLoopF (obs : Nat → Except String ContainerState) :
    Nat → Nat → ResumeResult
  | _, 0 => ResumeResult.timedOut
  | i, fuel + 1 =>
    match obs i with
    | Except.error e => ResumeResult.inspectFailed e
    | Except.ok st =>
      match st.health with
      | some s =>
        if s = "healthy" then ResumeResult.success
        else if s = "unhealthy" then ResumeResult.unhealthy
        else healthLoopF obs (i + 1) fuel
      | none => healthLoopF obs (i + 1) fuel

/-- The no-health-check polling loop: a set running flag succeeds, then a
nonzero exit code aborts fatally, anything else polls again; note the
running check precedes the exit-code check, as in the code. -/
def runningLoopF (obs : Nat → Except String ContainerState) :
    Nat → Nat → ResumeResult
  | _, 0 => ResumeResult.timedOut
  | i, fuel + 1 =>
    match obs i with
    | Except.error e => ResumeResult.inspectFailed e
    | Except.ok st =>
      if st.running then ResumeResult.success
      else if st.exitCode ≠ 0 then ResumeResult.startFailed st.exitCode
      else runningLoopF obs (i + 1) fuel

/-- Embedding of the resume branch of backup.handleDockerContainer: after
a successful start request, the first inspection decides whether a health
check is declared, then the corresponding loop polls the subsequent
observations. -/
def resumeContainer (startErr : Option String)
    (obs : Nat → Except String ContainerState) (fuel : Nat) : ResumeResult :=
  match startErr with
  | some e => ResumeResult.startError e
  | none =>
    match obs 0 with
    | Except.error e => ResumeResult.inspectFailed e
    | Except.ok st0 =>
      if st0.health.isSome then healthLoopF obs 1 fuel
      else runningLoopF obs 1 fuel

/-- Success of the health loop comes only from observing healthy inside
the window. -/
theorem healthLoopF_success (obs : Nat → Except String ContainerState) :
    ∀ fuel i, healthLoopF obs i fuel = ResumeResult.success →
      ∃ j st, i ≤ j ∧ j < i + fuel ∧ obs j = Except.ok st ∧
        st.health = some "healthy" := by
  intro fuel
  induction fuel with
  | zero => intro i h; simp [healthLoopF] at h
  | succ fuel ih =>
    intro i h
    rw [healthLoopF] at h
    cases hobs : obs i with
    | error e => simp [hobs] at h
    | ok st =>
      simp only [hobs] at h
      cases hh : st.health with
      | none =>
        simp only [hh] at h
        obtain ⟨j, st2, hij, hlt, ho, hh2⟩ := ih (i + 1) h
        exact ⟨j, st2, by omega, by omega, ho, hh2⟩
      | some s =>
        simp only [hh] at h
        by_cases hs : s = "healthy"
        · exact ⟨i, st, Nat.le_refl i, by omega, hobs, by rw [hh, hs]⟩
        · rw [if_neg hs] at h
          by_cases hu : s = "unhealthy"
          · rw [if_pos hu] at h; simp at h
          · rw [if_neg hu] at h
            obtain ⟨j, st2, hij, hlt, ho, hh2⟩ := ih (i + 1) h
            exact ⟨j, st2, by omega, by omega, ho, hh2⟩

/-- The fatal unhealthy result comes only from observing unhealthy inside
the window. -/
theorem healthLoopF_unhealthy (obs : Nat → Except String ContainerState) :
    ∀ fuel i, healthLoopF obs i fuel = ResumeResult.unhealthy →
      ∃ j st, i ≤ j ∧ j < i + fuel ∧ obs j = Except.ok st ∧
        st.health = some "unhealthy" := by
  intro fuel
  induction fuel with
  | zero => intro i h; simp [healthLoopF] at h
  | succ fuel ih =>
    intro i h
    rw [healthLoopF] at h
    cases hobs : obs i with
    | error e => simp [hobs] at h
    | ok st =>
      simp only [hobs] at h
      cases hh : st.health with
      | none =>
        simp only [hh] at h
        obtain ⟨j, st2, hij, hlt, ho, hh2⟩ := ih (i + 1) h
        exact ⟨j, st2, by omega, by omega, ho, hh2⟩
      | some s =>
        simp only [hh] at h
        by_cases hs : s = "healthy"
        · rw [if_pos hs] at h; simp at h
        · rw [if_neg hs] at h
          by_cases hu : s = "unhealthy"
          · exact ⟨i, st, Nat.le_refl i, by omega, hobs, by rw [hh, hu]⟩
          · rw [if_neg hu] at h
            obtain ⟨j, st2, hij, hlt, ho, hh2⟩ := ih (i + 1) h
            exact ⟨j, st2, by omega, by omega, ho, hh2⟩

/-- A window of starting statuses times out. -/
theorem healthLoopF_timeout (obs : Nat → Except String ContainerState) :
    ∀ fuel i,
      (∀ j, i ≤ j → j < i + fuel → ∃ st s, obs j = Except.ok st ∧
        st.health = some s ∧ s ≠ "healthy" ∧ s ≠ "unhealthy") →
      healthLoopF obs i fuel = ResumeResult.timedOut := by
  intro fuel
  induction fuel with
  | zero => intro i _; rfl
  | succ fuel ih =>
    intro i hall
    obtain ⟨st, s, ho, hh, hs, hu⟩ := hall i (Nat.le_refl i) (by omega)
    rw [healthLoopF]
    simp only [ho, hh]
    rw [if_neg hs, if_neg hu]
    exact ih (i + 1) fun j hj hlt => hall j (by omega) (by omega)

/-- Success of the running loop comes only from observing the running flag
set inside the window. -/
theorem runningLoopF_success (obs : Nat → Except String ContainerState) :
    ∀ fuel i, runningLoopF obs i fuel = ResumeResult.success →
      ∃ j st, i ≤ j ∧ j < i + fuel ∧ obs j = Except.ok st ∧
        st.running = true := by
  intro fuel
  induction fuel with
  | zero => intro i h; simp [runningLoopF] at h
  | succ fuel ih =>
    intro i h
    rw [runningLoopF] at h
    cases hobs : obs i with
    | error e => simp [hobs] at h
    | ok st =>
      simp only [hobs] at h
      by_cases hr : st.running
      · exact ⟨i, st, Nat.le_refl i, by omega, hobs, hr⟩
      · rw [if_neg hr] at h
        by_cases hc : st.exitCode ≠ 0
        · rw [if_pos hc] at h; simp at h
        · rw [if_neg hc] at h
          obtain ⟨j, st2, hij, hlt, ho, hr2⟩ := ih (i + 1) h
          exact ⟨j, st2, by omega, by omega, ho, hr2⟩

/-- The fatal start failure comes only from observing a nonzero exit code
with the running flag unset. -/
theorem runningLoopF_startFailed (obs : Nat → Except String ContainerState) :
    ∀ fuel i c, runningLoopF obs i fuel = ResumeResult.startFailed c →
      c ≠ 0 ∧ ∃ j st, i ≤ j ∧ j < i + fuel ∧ obs j = Except.ok st ∧
        st.running = false ∧ st.exitCode = c := by
  intro fuel
  induction fuel with
  | zero => intro i c h; simp [runningLoopF] at h
  | succ fuel ih =>
    intro i c h
    rw [runningLoopF] at h
    cases hobs : obs i with
    | error e => simp [hobs] at h
    | ok st =>
      simp only [hobs] at h
      by_cases hr : st.running
      · rw [if_pos hr] at h; simp at h
      · rw [if_neg hr] at h
        by_cases hc : st.exitCode ≠ 0
        · rw [if_pos hc] at h
          have hceq : st.exitCode = c := by
            cases h; rfl
          refine ⟨by rw [← hceq]; exact hc, i, st, Nat.le_refl i, by omega, hobs,
            by simpa using hr, hceq⟩
        · rw [if_neg hc] at h
          obtain ⟨hc0, j, st2, hij, hlt, ho, hr2, hc2⟩ := ih (i + 1) c h
          exact ⟨hc0, j, st2, by omega, by omega, ho, hr2, hc2⟩

/-- A window of not-running, zero-exit states times out. -/
theorem runningLoopF_timeout (obs : Nat → Except String ContainerState) :
    ∀ fuel i,
      (∀ j, i ≤ j → j < i + fuel → ∃ st, obs j = Except.ok st ∧
        st.running = false ∧ st.exitCode = 0) →
      runningLoopF obs i fuel = ResumeResult.timedOut := by
  intro fuel
  induction fuel with
  | zero => intro i _; rfl
  | succ fuel ih =>
    intro i hall
    obtain ⟨st, ho, hr, hc⟩ := hall i (Nat.le_refl i) (by omega)
    rw [runningLoopF]
    simp only [ho]
    rw [if_neg (by simp [hr]), if_neg (by simp [hc])]
    exact ih (i + 1) fun j hj hlt => hall j (by omega) (by omega)

/-- C9 (amended): with a health check declared, resume succeeds only upon
observing healthy, returns the fatal unhealthy error only upon observing
unhealthy, and times out on a window of other statuses; without a health
check, it succeeds only upon observing the running flag set, returns the
fatal start failure only upon observing a nonzero exit code with the
running flag unset, and times out on a window of not-running zero-exit
states; because the running check precedes the exit-code check, a state
with the running flag set yields success even when its recorded exit code
is nonzero; a failed start request aborts immediately. -/
theorem c9_resume_state_machine (obs : Nat → Except String ContainerState)
    (fuel : Nat) (st0 : ContainerState) (h0 : obs 0 = Except.ok st0) :
    (st0.health.isSome = true →
      (resumeContainer none obs fuel = ResumeResult.success →
        ∃ j st, 1 ≤ j ∧ j < 1 + fuel ∧ obs j = Except.ok st ∧
          st.health = some "healthy") ∧
      (resumeContainer none obs fuel = ResumeResult.unhealthy →
        ∃ j st, 1 ≤ j ∧ j < 1 + fuel ∧ obs j = Except.ok st ∧
          st.health = some "unhealthy") ∧
      ((∀ j, 1 ≤ j → j < 1 + fuel → ∃ st s, obs j = Except.ok st ∧
          st.health = some s ∧ s ≠ "healthy" ∧ s ≠ "unhealthy") →
        resumeContainer none obs fuel = ResumeResult.timedOut)) ∧
    (st0.health = none →
      (resumeContainer none obs fuel = ResumeResult.success →
        ∃ j st, 1 ≤ j ∧ j < 1 + fuel ∧ obs j = Except.ok st ∧
          st.running = true) ∧
      (∀ c, resumeContainer none obs fuel = ResumeResult.startFailed c →
        c ≠ 0 ∧ ∃ j st, 1 ≤ j ∧ j < 1 + fuel ∧ obs j = Except.ok st ∧
          st.running = false ∧ st.exitCode = c) ∧
      ((∀ j, 1 ≤ j → j < 1 + fuel → ∃ st, obs j = Except.ok st ∧
          st.running = false ∧ st.exitCode = 0) →
        resumeContainer none obs fuel = ResumeResult.timedOut) ∧
      (∀ st1, obs 1 = Except.ok st1 → st1.running = true → 1 ≤ fuel →
        resumeContainer none obs fuel = ResumeResult.success)) ∧
    (∀ e, resumeContainer (some e) obs fuel = ResumeResult.startError e) := by
  have hres : resumeContainer none obs fuel =
      if st0.health.isSome then healthLoopF obs 1 fuel
      else runningLoopF obs 1 fuel := by
    rw [resumeContainer, h0]
  refine ⟨?_, ?_, fun e => rfl⟩
  · intro hh
    rw [hres, if_pos hh]
    exact ⟨healthLoopF_success obs fuel 1, healthLoopF_unhealthy obs fuel 1,
      healthLoopF_timeout obs fuel 1⟩
  · intro hh
    have hh2 : st0.health.isSome = false := by simp [hh]
    rw [hres, hh2]
    simp only [Bool.false_eq_true, if_false]
    refine ⟨runningLoopF_success obs fuel 1, runningLoopF_startFailed obs fuel 1,
      runningLoopF_timeout obs fuel 1, ?_⟩
    intro st1 ho1 hr1 hf
    cases fuel with
    | zero => omega
    | succ fuel =>
      rw [runningLoopF]
      simp only [ho1]
      rw [if_pos hr1]

/-- Observation sequence that reports healthy at every poll. -/
def obsHealthy : Nat → Except String ContainerState :=
  fun _ => Except.ok ⟨false, some "healthy", 0⟩

/-- Closed instance of c9_resume_state_machine: polling the always-healthy
sequence yields an observed healthy status. -/
theorem c9_resume_state_machine_witness :
    ∃ j st, 1 ≤ j ∧ j < 1 + 2 ∧ obsHealthy j = Except.ok st ∧
      st.health = some "healthy" :=
  ((c9_resume_state_machine obsHealthy 2 ⟨false, some "healthy", 0⟩ rfl).1
    rfl).1 rfl

/-- Observation sequence whose states are running with recorded exit code
1. -/
def obsRunningExit1 : Nat → Except String ContainerState :=
  fun _ => Except.ok ⟨true, none, 1⟩

/-- C9 counterexample: with no health check declared and every observed
state running with exit code 1, resume reports success although the last
observed exit code is nonzero, because the code tests the running flag
before the exit code. -/
theorem c9_counterexample :
    resumeContainer none obsRunningExit1 1 = ResumeResult.success ∧
    obsRunningExit1 0 = Except.ok ⟨true, none, 1⟩ ∧
    obsRunningExit1 1 = Except.ok ⟨true, none, 1⟩ ∧
    (1 : Int) ≠ 0 := by
  refine ⟨rfl, rfl, rfl, by decide⟩

end Packrat
